import Mathlib

/-!
# Verification of `java_class_parser`

A shallow embedding, in Lean 4, of the parts of the `java_class_parser`
repository (crates `java_class_parser` and `java_classpaths`, plus the root
crate under `src/`) that its specification makes claims about:

* the JNI type-signature grammar parser (`src/structures/signatures.rs`),
* the `LineNumberTable` attribute and its `pc_to_line` lookup
  (`crates/java_class_parser/src/structures/attributes.rs`),
* the constant pool, its 1-based `get`, and recursive string resolution
  (`src/constant_pool.rs`, `src/structures/class.rs`),
* the constant-pool entry decoder (`src/constant_pool/parser.rs`),
* the attribute resolver `Attribute::new` and the nested `Code` /
  `LineNumberTable` payload parsers,
* classpath resource lookup (`crates/java_classpaths/src/lib.rs`),
* `JavaClassParser::find_interfaces` (`crates/java_class_parser/src/lib.rs`),
* the inheritance graph builder and BFS query
  (`crates/java_class_parser/src/inheritance.rs`).

Rust strings are modelled as `List Char` (or `String` where convenient),
byte buffers as `List Nat` with values below 256, and machine integers as
`Nat` with explicit wrap-around (`% 2 ^ w`) where overflow matters.
Fallible Rust code returns `Option` / `Except`; a Rust `panic!` /
`.unwrap()` on an error value is modelled by a dedicated result
constructor.  `nom` parsers become functions from input lists to
`Option (result × rest)`, with `none` covering both `nom` error and
incomplete outcomes (the code under scrutiny treats the two identically).
-/

/-! ## Signature grammar (`src/structures/signatures.rs`)

The Rust AST (lifetimes erased; `&'a str` becomes `List Char`):

```text
pub enum Signature<'a> {
    Boolean, Byte, Char, Short, Int, Long, Float, Double, Void,
    FullyQualifiedClass(&'a str),
    Array(Box<Signature<'a>>),
    Method { args: Box<[Signature<'a>]>, ret_type: Box<Signature<'a>> },
}
```
-/

/-- A Rust `&str`, modelled as its character list.  (Named before
`Signature` so that the constructor names `Char` / `Array` of the latter
cannot shadow the Lean builtins inside the declaration.) -/
abbrev Str := List Char

inductive Signature where
  | Boolean
  | Byte
  | Char
  | Short
  | Int
  | Long
  | Float
  | Double
  | Void
  | FullyQualifiedClass (path : Str)
  | Array (inner : Signature)
  | Method (args : List Signature) (ret_type : Signature)
  deriving Repr

/-! Character classes used by `parse_java_identifier`.  `nom`'s `alpha1` /
`alphanumeric1` accept ASCII letters / ASCII letters-and-digits only. -/

def isAsciiAlpha (c : Char) : Bool :=
  (decide ('A' ≤ c) && decide (c ≤ 'Z')) || (decide ('a' ≤ c) && decide (c ≤ 'z'))

def isAsciiAlphanumeric (c : Char) : Bool :=
  isAsciiAlpha c || (decide ('0' ≤ c) && decide (c ≤ '9'))

/-- First character of a Java identifier: `alt((alpha1, tag("$"), tag("_")))`. -/
def isIdentStart (c : Char) : Bool :=
  isAsciiAlpha c || c = '$' || c = '_'

/-- Continuation character: `alt((alphanumeric1, tag("$"), tag("_")))`. -/
def isIdentCont (c : Char) : Bool :=
  isAsciiAlphanumeric c || c = '$' || c = '_'

/-- `parse_java_identifier`: `recognize(preceded(alt((alpha1, tag("$"), tag("_"))),
many0(alt((alphanumeric1, tag("$"), tag("_"))))))`.  Its net effect on the
input is to split off the longest prefix whose first character satisfies
`isIdentStart` and whose remaining characters satisfy `isIdentCont`
(maximal munch), failing if the first character does not qualify. -/
def identSplit : Str → Option (Str × Str)
  | [] => none
  | c :: rest =>
    if isIdentStart c then
      some (c :: rest.takeWhile isIdentCont, rest.dropWhile isIdentCont)
    else none

theorem dropWhile_length_le (p : Char → Bool) (l : Str) :
    (l.dropWhile p).length ≤ l.length := by
  induction l with
  | nil => simp
  | cons c cs ih =>
    by_cases h : p c
    · simp only [List.dropWhile, h, List.length_cons]
      omega
    · simp [List.dropWhile, h]

theorem identSplit_rest_lt {s tk rest : Str} (h : identSplit s = some (tk, rest)) :
    rest.length < s.length := by
  match s with
  | [] => simp [identSplit] at h
  | c :: cs =>
    simp only [identSplit] at h
    split at h
    · cases h
      have := dropWhile_length_le isIdentCont cs
      simp only [List.length_cons]
      omega
    · cases h

/-- `parse_java_path`: `recognize(separated_list1(tag("/"), parse_java_identifier))`.
Splits off `ident ("/" ident)*`; when a `/` is not followed by an identifier,
`separated_list1` backtracks and leaves the `/` unconsumed.  The recursion is
fuelled: every recursive step consumes at least two characters (an identifier
character and the `/`), so fuel `s.length + 1` — used at the single call site
below — always suffices, making the fuelled function extensionally equal to
the Rust original. -/
def pathSplitF : Nat → Str → Option (Str × Str)
  | 0, _ => none
  | fuel + 1, s =>
    match identSplit s with
    | none => none
    | some (tk, rest) =>
      match rest with
      | '/' :: r2 =>
        match pathSplitF fuel r2 with
        | some (tk2, r3) => some (tk ++ '/' :: tk2, r3)
        | none => some (tk, rest)
      | _ => some (tk, rest)

/-! The `alt` in `parse_signature` (`signatures.rs:134-162`), fuelled for
termination.  Branch order follows the source; the alternatives are
discriminated by their first character, so the `match` is faithful to
`nom::branch::alt`'s first-success semantics.  Fuel decreases on every
recursive call; `Signature::new` below supplies fuel `2 * input length + 1`,
which is an upper bound on the recursion depth reachable while any input
remains (each unit of depth beyond one consumes at least one character or
is the single zero-consumption hop from `many0` into `parse_signature`). -/
mutual

def parseSignatureF : Nat → Str → Option (Signature × Str)
  | 0, _ => none
  | fuel + 1, s =>
    match s with
    | 'Z' :: r => some (.Boolean, r)
    | 'B' :: r => some (.Byte, r)
    | 'C' :: r => some (.Char, r)
    | 'S' :: r => some (.Short, r)
    | 'I' :: r => some (.Int, r)
    | 'J' :: r => some (.Long, r)
    | 'F' :: r => some (.Float, r)
    | 'D' :: r => some (.Double, r)
    | 'V' :: r => some (.Void, r)
    | 'L' :: r =>
      match pathSplitF (r.length + 1) r with
      | some (tk, ';' :: r2) => some (.FullyQualifiedClass tk, r2)
      | _ => none
    | '[' :: r =>
      match parseSignatureF fuel r with
      | some (inner, r2) => some (.Array inner, r2)
      | none => none
    | '(' :: r =>
      match parseSigListF fuel r with
      | (args, ')' :: r2) =>
        match parseSignatureF fuel r2 with
        | some (ret_type, r3) => some (.Method args ret_type, r3)
        | none => none
      | _ => none
    | _ => none

/-- `many0(parse_signature)`: collect signatures while the inner parser
succeeds; the first failure ends the list without consuming input. -/
def parseSigListF : Nat → Str → List Signature × Str
  | 0, s => ([], s)
  | fuel + 1, s =>
    match parseSignatureF fuel s with
    | some (sig, r) =>
      let (sigs, r2) := parseSigListF fuel r
      (sig :: sigs, r2)
    | none => ([], s)

end

/-- `Signature::new` (`signatures.rs:45-52`): run `parse_signature`, then
require `eof` on the leftover input. -/
def Signature.new (s : Str) : Option Signature :=
  match parseSignatureF (2 * s.length + 1) s with
  | some (sig, []) => some sig
  | _ => none

/-- `Signature::jni` (`signatures.rs:55-80`): re-encode the AST as a JNI
descriptor string.  `jniArgs` is the `args.iter().map(|s| s.jni()).collect`
of the `Method` arm. -/
def Signature.jni : Signature → Str
  | .Boolean => ['Z']
  | .Byte => ['B']
  | .Char => ['C']
  | .Short => ['S']
  | .Int => ['I']
  | .Long => ['J']
  | .Float => ['F']
  | .Double => ['D']
  | .Void => ['V']
  | .FullyQualifiedClass f => 'L' :: f ++ [';']
  | .Array inner => '[' :: inner.jni
  | .Method args ret_type => '(' :: jniArgs args ++ ')' :: ret_type.jni
where
  jniArgs : List Signature → Str
    | [] => []
    | a :: as => a.jni ++ jniArgs as

/-! ## `LineNumberTable::pc_to_line`
(`crates/java_class_parser/src/structures/attributes.rs:255-268`)

```text
let mut output = None;
for &(start_pc, line_number) in &self.line_number_table[..] {
    if pc > start_pc { break; } else { output = Some(line_number); }
}
output
```
-/

/-- One `LineNumberTable` (the boxed slice of `(start_pc, line_number)`
pairs). -/
structure LineNumberTable where
  line_number_table : List (Nat × Nat)
  deriving Repr, DecidableEq

/-- The `for` loop of `pc_to_line`, with `output` as accumulator. -/
def pcToLineGo : List (Nat × Nat) → Nat → Option Nat → Option Nat
  | [], _, output => output
  | (start_pc, line_number) :: rest, pc, output =>
    if pc > start_pc then output else pcToLineGo rest pc (some line_number)

/-- `LineNumberTable::pc_to_line`. -/
def LineNumberTable.pc_to_line (t : LineNumberTable) (pc : Nat) : Option Nat :=
  pcToLineGo t.line_number_table pc none

/-! ## The descriptor grammar, and the round-trip law (claim C2)

The spec's grammar: `primitive ∈ {Z,B,C,S,I,J,F,D,V}`; `object := L path ;`;
`array := [ signature`; `method := ( signature* ) signature`, where `path`
is the language of `parse_java_path` (identifiers separated by `/`).
Derivation trees of this grammar are exactly the well-formed `Signature`
ASTs below, and the string generated by a derivation is exactly the `jni`
encoding of its AST; so "syntactically valid descriptor" is formalised as
"`jni` image of a `WF` signature". -/

/-- The language of `parse_java_identifier`. -/
def validIdent (l : Str) : Bool :=
  match l with
  | [] => false
  | c :: cs => isIdentStart c && cs.all isIdentCont

/-- The language of `parse_java_path`: `ident ("/" ident)*`. -/
inductive ValidPath : Str → Prop
  | single (l : Str) (h : validIdent l = true) : ValidPath l
  | sep (l p : Str) (h : validIdent l = true) (hp : ValidPath p) :
      ValidPath (l ++ '/' :: p)

/-- Well-formed signature trees: derivations of the descriptor grammar. -/
inductive WF : Signature → Prop
  | boolean : WF .Boolean
  | byte : WF .Byte
  | char : WF .Char
  | short : WF .Short
  | int : WF .Int
  | long : WF .Long
  | float : WF .Float
  | double : WF .Double
  | void : WF .Void
  | fqc (p : Str) (h : ValidPath p) : WF (.FullyQualifiedClass p)
  | array (s : Signature) (h : WF s) : WF (.Array s)
  | method (args : List Signature) (ret_type : Signature)
      (ha : ∀ a ∈ args, WF a) (hr : WF ret_type) : WF (.Method args ret_type)

theorem takeWhile_all_append {p : Char → Bool} {cs : Str} {d : Char} (r : Str)
    (hcs : ∀ x ∈ cs, p x = true) (hd : p d = false) :
    (cs ++ d :: r).takeWhile p = cs ∧ (cs ++ d :: r).dropWhile p = d :: r := by
  induction cs with
  | nil => simp [List.takeWhile, List.dropWhile, hd]
  | cons c cs ih =>
    have hc : p c = true := hcs c (by simp)
    have := ih (fun x hx => hcs x (by simp [hx]))
    simp [List.takeWhile, List.dropWhile, hc, this]

theorem identSplit_valid {l : Str} (h : validIdent l = true) {d : Char}
    (hd : isIdentCont d = false) (r : Str) :
    identSplit (l ++ d :: r) = some (l, d :: r) := by
  match l with
  | [] => simp [validIdent] at h
  | c :: cs =>
    simp only [validIdent, Bool.and_eq_true, List.all_eq_true] at h
    obtain ⟨h1, h2⟩ := h
    have := takeWhile_all_append (p := isIdentCont) r h2 hd
    simp [identSplit, h1, this.1, this.2]

theorem pathSplitF_valid {p : Str} (h : ValidPath p) :
    ∀ (f : Nat) (r : Str), p.length < f →
      pathSplitF f (p ++ ';' :: r) = some (p, ';' :: r) := by
  induction h with
  | single l hl =>
    intro f r hf
    match f with
    | g + 1 =>
      have hid := identSplit_valid hl (d := ';') (by decide) r
      simp [pathSplitF, hid]
  | sep l q hl hq ih =>
    intro f r hf
    match f with
    | g + 1 =>
      have hshape : (l ++ '/' :: q) ++ ';' :: r = l ++ '/' :: (q ++ ';' :: r) := by
        simp
      have hid := identSplit_valid hl (d := '/') (by decide) (q ++ ';' :: r)
      have hrec : pathSplitF g (q ++ ';' :: r) = some (q, ';' :: r) := by
        apply ih
        simp at hf
        omega
      rw [hshape]
      simp [pathSplitF, hid, hrec]

/-! Fuel bookkeeping: `sigFuel` / `argsFuel` compute a sufficient recursion
budget for `parseSignatureF` / `parseSigListF` on the encoding of a tree. -/

mutual

def sigFuel : Signature → Nat
  | .Array inner => sigFuel inner + 1
  | .Method args ret_type => max (argsFuel args) (sigFuel ret_type) + 1
  | _ => 1

def argsFuel : List Signature → Nat
  | [] => 0
  | a :: as => max (sigFuel a) (argsFuel as) + 1

end

theorem parseSignatureF_rparen (f : Nat) (r : Str) :
    parseSignatureF f (')' :: r) = none := by
  cases f with
  | zero => rfl
  | succ g => rfl

theorem parseSigListF_rparen (f : Nat) (r : Str) :
    parseSigListF f (')' :: r) = ([], ')' :: r) := by
  cases f with
  | zero => rfl
  | succ g => simp [parseSigListF, parseSignatureF_rparen]
theorem exists_succ_of_le {f : Nat} (h : 1 ≤ f) : ∃ g, f = g + 1 :=
  ⟨f - 1, by omega⟩

theorem sigFuel_pos (s : Signature) : 1 ≤ sigFuel s := by
  match s with
  | .Array inner => exact Nat.succ_le_succ (Nat.zero_le _)
  | .Method args ret_type => exact Nat.succ_le_succ (Nat.zero_le _)
  | .Boolean | .Byte | .Char | .Short | .Int | .Long | .Float | .Double | .Void =>
    exact le_refl 1
  | .FullyQualifiedClass p => exact le_refl 1

/-! One-step unfolding equations for the fuelled parsers, each holding by
definitional reduction. -/

theorem parseSignatureF_obj (g : Nat) (t : Str) :
    parseSignatureF (g + 1) ('L' :: t) =
      match pathSplitF (t.length + 1) t with
      | some (tk, ';' :: r2) => some (.FullyQualifiedClass tk, r2)
      | _ => none := rfl

theorem parseSignatureF_arr (g : Nat) (t : Str) :
    parseSignatureF (g + 1) ('[' :: t) =
      match parseSignatureF g t with
      | some (inner, r2) => some (.Array inner, r2)
      | none => none := rfl

theorem parseSignatureF_mth (g : Nat) (t : Str) :
    parseSignatureF (g + 1) ('(' :: t) =
      match parseSigListF g t with
      | (args, ')' :: r2) =>
        match parseSignatureF g r2 with
        | some (ret_type, r3) => some (.Method args ret_type, r3)
        | none => none
      | _ => none := rfl

theorem parseSigListF_step (g : Nat) (s : Str) :
    parseSigListF (g + 1) s =
      match parseSignatureF g s with
      | some (sig, r) =>
        let (sigs, r2) := parseSigListF g r
        (sig :: sigs, r2)
      | none => ([], s) := rfl

theorem parseSigListF_args (args : List Signature)
    (hsub : ∀ a ∈ args, ∀ (f : Nat) (r : Str), sigFuel a ≤ f →
      parseSignatureF f (a.jni ++ r) = some (a, r)) :
    ∀ (f : Nat) (t : Str), argsFuel args ≤ f →
      parseSigListF f (Signature.jni.jniArgs args ++ ')' :: t) = (args, ')' :: t) := by
  induction args with
  | nil =>
    intro f t _
    simpa [Signature.jni.jniArgs] using parseSigListF_rparen f t
  | cons a as ih =>
    intro f t hf
    have hfa : argsFuel (a :: as) = max (sigFuel a) (argsFuel as) + 1 := rfl
    obtain ⟨g, rfl⟩ := exists_succ_of_le (show 1 ≤ f by omega)
    have hbound := Nat.max_le.mp (show max (sigFuel a) (argsFuel as) ≤ g by omega)
    have h1 : parseSignatureF g (a.jni ++ (Signature.jni.jniArgs as ++ ')' :: t)) =
        some (a, Signature.jni.jniArgs as ++ ')' :: t) :=
      hsub a (by simp) g (Signature.jni.jniArgs as ++ ')' :: t) hbound.1
    have h2 := ih (fun x hx => hsub x (by simp [hx])) g t hbound.2
    have hshape : Signature.jni.jniArgs (a :: as) ++ ')' :: t =
        a.jni ++ (Signature.jni.jniArgs as ++ ')' :: t) := by
      simp [Signature.jni.jniArgs]
    rw [hshape, parseSigListF_step, h1]
    show (let (sigs, r2) := parseSigListF g (Signature.jni.jniArgs as ++ ')' :: t)
      ((a :: sigs, r2) : List Signature × Str)) = (a :: as, ')' :: t)
    rw [h2]

theorem parseSignatureF_of_WF {sig : Signature} (h : WF sig) :
    ∀ (f : Nat) (r : Str), sigFuel sig ≤ f →
      parseSignatureF f (sig.jni ++ r) = some (sig, r) := by
  induction h with
  | boolean =>
    intro f r hf
    obtain ⟨g, rfl⟩ := exists_succ_of_le (le_trans (sigFuel_pos _) hf)
    rfl
  | byte =>
    intro f r hf
    obtain ⟨g, rfl⟩ := exists_succ_of_le (le_trans (sigFuel_pos _) hf)
    rfl
  | char =>
    intro f r hf
    obtain ⟨g, rfl⟩ := exists_succ_of_le (le_trans (sigFuel_pos _) hf)
    rfl
  | short =>
    intro f r hf
    obtain ⟨g, rfl⟩ := exists_succ_of_le (le_trans (sigFuel_pos _) hf)
    rfl
  | int =>
    intro f r hf
    obtain ⟨g, rfl⟩ := exists_succ_of_le (le_trans (sigFuel_pos _) hf)
    rfl
  | long =>
    intro f r hf
    obtain ⟨g, rfl⟩ := exists_succ_of_le (le_trans (sigFuel_pos _) hf)
    rfl
  | float =>
    intro f r hf
    obtain ⟨g, rfl⟩ := exists_succ_of_le (le_trans (sigFuel_pos _) hf)
    rfl
  | double =>
    intro f r hf
    obtain ⟨g, rfl⟩ := exists_succ_of_le (le_trans (sigFuel_pos _) hf)
    rfl
  | void =>
    intro f r hf
    obtain ⟨g, rfl⟩ := exists_succ_of_le (le_trans (sigFuel_pos _) hf)
    rfl
  | fqc p hp =>
    intro f r hf
    obtain ⟨g, rfl⟩ := exists_succ_of_le (le_trans (sigFuel_pos _) hf)
    have hshape : (Signature.FullyQualifiedClass p).jni ++ r = 'L' :: (p ++ ';' :: r) := by
      simp [Signature.jni]
    have hpath := pathSplitF_valid hp ((p ++ ';' :: r).length + 1) r
      (by simp only [List.length_append, List.length_cons]; omega)
    rw [hshape, parseSignatureF_obj, hpath]
    rfl
  | array s hs ih =>
    intro f r hf
    obtain ⟨g, rfl⟩ := exists_succ_of_le (le_trans (sigFuel_pos _) hf)
    have hfa : sigFuel (Signature.Array s) = sigFuel s + 1 := rfl
    have hshape : (Signature.Array s).jni ++ r = '[' :: (s.jni ++ r) := by
      simp [Signature.jni]
    have hrec := ih g r (by omega)
    rw [hshape, parseSignatureF_arr, hrec]
  | method args ret_type ha hr ih_a ih_r =>
    intro f r hf
    obtain ⟨g, rfl⟩ := exists_succ_of_le (le_trans (sigFuel_pos _) hf)
    have hfa : sigFuel (Signature.Method args ret_type) =
        max (argsFuel args) (sigFuel ret_type) + 1 := rfl
    have hbound := Nat.max_le.mp
      (show max (argsFuel args) (sigFuel ret_type) ≤ g by omega)
    have hshape : (Signature.Method args ret_type).jni ++ r =
        '(' :: (Signature.jni.jniArgs args ++ ')' :: (ret_type.jni ++ r)) := by
      simp [Signature.jni]
    have hlist := parseSigListF_args args (fun a haa => ih_a a haa) g (ret_type.jni ++ r)
      hbound.1
    have hret := ih_r g r hbound.2
    rw [hshape, parseSignatureF_mth, hlist]
    show (match parseSignatureF g (ret_type.jni ++ r) with
      | some (rt, r3) => some (Signature.Method args rt, r3)
      | none => none) = some (Signature.Method args ret_type, r)
    rw [hret]

theorem jni_length_pos (s : Signature) : 1 ≤ s.jni.length := by
  match s with
  | .Boolean | .Byte | .Char | .Short | .Int | .Long | .Float | .Double | .Void =>
    simp [Signature.jni]
  | .FullyQualifiedClass p => simp [Signature.jni]
  | .Array inner => simp [Signature.jni]
  | .Method args ret_type => simp [Signature.jni]

mutual

theorem sigFuel_le_length (s : Signature) : sigFuel s ≤ s.jni.length := by
  match s with
  | .Boolean | .Byte | .Char | .Short | .Int | .Long | .Float | .Double | .Void =>
    simp [sigFuel, Signature.jni]
  | .FullyQualifiedClass p => simp [sigFuel, Signature.jni]
  | .Array inner =>
    have h1 := sigFuel_le_length inner
    have h2 : sigFuel (Signature.Array inner) = sigFuel inner + 1 := rfl
    have h3 : (Signature.Array inner).jni.length = inner.jni.length + 1 := by
      simp [Signature.jni]
    omega
  | .Method args ret_type =>
    have h1 := argsFuel_le_length args
    have h2 := sigFuel_le_length ret_type
    have hm : max (argsFuel args) (sigFuel ret_type) ≤
        (Signature.jni.jniArgs args).length + 1 + ret_type.jni.length :=
      max_le (by omega) (by omega)
    have h3 : sigFuel (Signature.Method args ret_type) =
        max (argsFuel args) (sigFuel ret_type) + 1 := rfl
    have h4 : (Signature.Method args ret_type).jni.length =
        (Signature.jni.jniArgs args).length + ret_type.jni.length + 2 := by
      simp [Signature.jni]
      omega
    omega

theorem argsFuel_le_length (l : List Signature) :
    argsFuel l ≤ (Signature.jni.jniArgs l).length + 1 := by
  match l with
  | [] => simp [argsFuel, Signature.jni.jniArgs]
  | a :: as =>
    have h1 := sigFuel_le_length a
    have h2 := argsFuel_le_length as
    have h3 := jni_length_pos a
    have hm : max (sigFuel a) (argsFuel as) ≤
        a.jni.length + (Signature.jni.jniArgs as).length :=
      max_le (by omega) (by omega)
    have h4 : argsFuel (a :: as) = max (sigFuel a) (argsFuel as) + 1 := rfl
    have h5 : (Signature.jni.jniArgs (a :: as)).length =
        a.jni.length + (Signature.jni.jniArgs as).length := by
      simp [Signature.jni.jniArgs]
    omega

end

/-- **Claim C2** — for every syntactically valid descriptor string `s`
(derivable from the grammar: primitive in `{Z,B,C,S,I,J,F,D,V}`; object
`L path ;`; array `[ signature`; method `( signature* ) signature`),
parsing `s` with `Signature::new` succeeds, and re-encoding the result with
`Signature::jni` yields exactly `s`.  Valid descriptors are exactly the
`jni` images of well-formed signature trees, so `s` ranges over `sig.jni`
for `WF sig`. -/
theorem C2_signature_roundtrip (sig : Signature) (h : WF sig) :
    ∃ t : Signature, Signature.new sig.jni = some t ∧ t.jni = sig.jni := by
  refine ⟨sig, ?_, rfl⟩
  have hfuel : sigFuel sig ≤ 2 * sig.jni.length + 1 := by
    have := sigFuel_le_length sig
    omega
  have hparse := parseSignatureF_of_WF h (2 * sig.jni.length + 1) [] hfuel
  rw [List.append_nil] at hparse
  unfold Signature.new
  rw [hparse]

/-- Witness for C2: the descriptor `(ZI)Ljava/lang/Object;` — the spec's
own end-to-end example — round-trips through `Signature::new` and
`Signature::jni`. -/
theorem C2_signature_roundtrip_witness :
    ∃ t : Signature,
      Signature.new (Signature.jni (.Method [.Boolean, .Int]
        (.FullyQualifiedClass
          ['j', 'a', 'v', 'a', '/', 'l', 'a', 'n', 'g', '/', 'O', 'b', 'j', 'e', 'c', 't']))) =
        some t ∧
      t.jni = Signature.jni (.Method [.Boolean, .Int]
        (.FullyQualifiedClass
          ['j', 'a', 'v', 'a', '/', 'l', 'a', 'n', 'g', '/', 'O', 'b', 'j', 'e', 'c', 't'])) :=
  C2_signature_roundtrip _
    (WF.method _ _
      (by
        intro a ha
        simp only [List.mem_cons, List.not_mem_nil, or_false] at ha
        rcases ha with rfl | rfl
        · exact WF.boolean
        · exact WF.int)
      (WF.fqc _
        (ValidPath.sep ['j', 'a', 'v', 'a'] _ (by decide)
          (ValidPath.sep ['l', 'a', 'n', 'g'] _ (by decide)
            (ValidPath.single ['O', 'b', 'j', 'e', 'c', 't'] (by decide))))))

/-- **Claim C1** (code bug evaluation) — the spec says `pc_to_line` returns
the line of the entry with the greatest `start_pc` not exceeding `pc`, so on
the table `[(0,10),(5,11)]` it should map `3 ↦ some 10` and `5 ↦ some 11`.
The loop in the source compares the wrong way around (`if pc > start_pc {
break } else { output = Some(line_number) }`), so the code returns `none`
for both queries (and `some 11` for `pc = 0`). -/
theorem C1_pc_to_line_code_bug :
    LineNumberTable.pc_to_line ⟨[(0, 10), (5, 11)]⟩ 3 = none ∧
    LineNumberTable.pc_to_line ⟨[(0, 10), (5, 11)]⟩ 5 = none ∧
    LineNumberTable.pc_to_line ⟨[(0, 10), (5, 11)]⟩ 0 = some 11 :=
  ⟨rfl, rfl, rfl⟩

/-! ## Constant pool (`src/constant_pool.rs`, `src/constant_pool/values.rs`)

`ConstantPoolInfo` is the tagged union of `values.rs`; `u16`/`u32` fields
become `Nat`.  The `Float`/`Double` payloads (`f32`/`f64`) are kept as raw
bit patterns — the decoder never constructs them (`todo!()` bodies).  A
`Utf8` entry keeps its raw byte payload (`Box<[u8]>`). -/

inductive ConstantPoolInfo where
  | Class (name_index : Nat)
  | FieldRef (class_index name_and_type_index : Nat)
  | MethodRef (class_index name_and_type_index : Nat)
  | InterfaceMethodRef (class_index name_and_type_index : Nat)
  | String (string_index : Nat)
  | Integer (int : Nat)
  | Float (float : Nat)
  | Long (long : Nat)
  | Double (double : Nat)
  | NameAndType (name_index descriptor_index : Nat)
  | Utf8 (bytes : List Nat)
  | MethodHandle (reference_kind : Nat) (reference_index : Nat)
  | MethodType (descriptor_index : Nat)
  | InvokeDynamic (bootstrap_method_attr_index name_and_type_index : Nat)
  deriving Repr, DecidableEq

/-- The decoded pool: `count - 1` entries, indexed 1-based through `get`. -/
structure ConstantPool where
  pool : List ConstantPoolInfo
  deriving Repr, DecidableEq

/-- `ConstantPool::get` (`src/constant_pool.rs:67-71`):
`self.pool.get(index as usize - 1)`.  The subtraction is `usize`
arithmetic: it wraps modulo `2 ^ 64` (the release-profile semantics; a
build with overflow checks enabled would instead panic at `index = 0`),
so `get(0)` probes slot `2 ^ 64 - 1`, far past any pool decoded from a
`u16` count, and `Vec::get` returns `None`. -/
def ConstantPool.get (cp : ConstantPool) (index : Nat) : Option ConstantPoolInfo :=
  cp.pool[(index + (2 ^ 64 - 1)) % 2 ^ 64]?

/-- **Claim C5** — constant-pool lookup is total and 1-based: `get(0)` is
`none`; `get(i)` for `i ∈ [1, count-1]` is the entry decoded at that
position (where the pool holds `count - 1` entries); `get(i)` for
`i ≥ count` is `none`.  Indices are `u16` values and the pool was decoded
from a `u16` entry count, whence the two size hypotheses. -/
theorem C5_constant_pool_get (pool : List ConstantPoolInfo) (index : Nat)
    (hpool : pool.length ≤ 65534) (hindex : index ≤ 65535) :
    ConstantPool.get ⟨pool⟩ 0 = none ∧
    (1 ≤ index → index ≤ pool.length →
      ConstantPool.get ⟨pool⟩ index = pool[index - 1]? ∧ pool[index - 1]?.isSome) ∧
    (pool.length + 1 ≤ index → ConstantPool.get ⟨pool⟩ index = none) := by
  refine ⟨?_, fun h1 h2 => ⟨?_, ?_⟩, fun h3 => ?_⟩
  · show pool[(0 + (2 ^ 64 - 1)) % 2 ^ 64]? = none
    have hmod : (0 + (2 ^ 64 - 1)) % 2 ^ 64 = 2 ^ 64 - 1 := by
      apply Nat.mod_eq_of_lt
      omega
    rw [hmod]
    apply List.getElem?_eq_none
    omega
  · show pool[(index + (2 ^ 64 - 1)) % 2 ^ 64]? = pool[index - 1]?
    have hmod : (index + (2 ^ 64 - 1)) % 2 ^ 64 = index - 1 := by
      have hsplit : index + (2 ^ 64 - 1) = 2 ^ 64 + (index - 1) := by omega
      rw [hsplit, Nat.add_mod_left]
      apply Nat.mod_eq_of_lt
      omega
    rw [hmod]
  · have hlt : index - 1 < pool.length := by omega
    simp [List.getElem?_eq_getElem hlt]
  · show pool[(index + (2 ^ 64 - 1)) % 2 ^ 64]? = none
    have hmod : (index + (2 ^ 64 - 1)) % 2 ^ 64 = index - 1 := by
      have hsplit : index + (2 ^ 64 - 1) = 2 ^ 64 + (index - 1) := by omega
      rw [hsplit, Nat.add_mod_left]
      apply Nat.mod_eq_of_lt
      omega
    rw [hmod]
    apply List.getElem?_eq_none
    omega

/-- Witness for C5: the one-entry pool `[Utf8 "a"]` (entry count 2) at
index 1. -/
theorem C5_constant_pool_get_witness :
    ConstantPool.get ⟨[ConstantPoolInfo.Utf8 [97]]⟩ 0 = none ∧
    (1 ≤ 1 → 1 ≤ [ConstantPoolInfo.Utf8 [97]].length →
      ConstantPool.get ⟨[ConstantPoolInfo.Utf8 [97]]⟩ 1 =
        [ConstantPoolInfo.Utf8 [97]][1 - 1]? ∧
      [ConstantPoolInfo.Utf8 [97]][1 - 1]?.isSome) ∧
    ([ConstantPoolInfo.Utf8 [97]].length + 1 ≤ 1 →
      ConstantPool.get ⟨[ConstantPoolInfo.Utf8 [97]]⟩ 1 = none) :=
  C5_constant_pool_get [ConstantPoolInfo.Utf8 [97]] 1 (by decide) (by decide)

/-! ## String resolution (`src/structures/class.rs:30-38`)

```text
pub(crate) fn get_string(&self, index: u16) -> Option<&str> {
    match self.raw_constant_pool().get(index)? {
        ConstantPoolInfo::String(StringValue { string_index }) => {
            self.get_string(*string_index)
        }
        ConstantPoolInfo::Utf8(s) => Some(s.as_ref()),
        _ => None,
    }
}
```

The Rust recursion has no termination guard, so it is embedded with an
explicit recursion budget: `getStringF fuel` runs at most `fuel` steps and
answers `none` when the budget runs out.  Because each recursive hop goes
through a `String` entry stored at a valid pool slot, and `get_string` is a
pure function of the pool and index (so revisiting a slot repeats forever),
the real recursion either reaches a non-`String` outcome within
`pool.length + 1` steps or never terminates; the budgeted function with
that fuel therefore decides the Rust function exactly, with outer `none`
marking divergence.  A successful lookup of a `Utf8` entry yields the
entry's byte payload (the `&str` view `Utf8::as_ref` takes of it). -/

def getStringF (cp : ConstantPool) : Nat → Nat → Option (Option (List Nat))
  | 0, _ => none
  | fuel + 1, index =>
    match cp.get index with
    | none => some none
    | some (.String string_index) => getStringF cp fuel string_index
    | some (.Utf8 s) => some (some s)
    | some _ => some none

/-- **Claim C9** (code bug evaluation) — the spec says string resolution
terminates for every pool and index, performing a single indirection.  The
code instead recurses through `String` entries without a guard: on the
one-entry pool whose `String` entry references itself (`get(1)` yields
`String { string_index: 1 }`), `get_string(1)` calls `get_string(1)` again,
and no recursion budget whatsoever reaches an answer — the Rust original
recurses forever. -/
theorem C9_get_string_diverges :
    ∀ fuel : Nat, getStringF ⟨[ConstantPoolInfo.String 1]⟩ fuel 1 = none := by
  intro fuel
  induction fuel with
  | zero => rfl
  | succ g ih => exact ih

/-! ## Constant-pool entry decoding (`src/constant_pool/parser.rs:89-165`)

Big-endian primitive readers from `nom` (`be_u16`, `be_u32`, `take`),
over byte buffers `List Nat`. -/

def beU16 : List Nat → Option (Nat × List Nat)
  | b1 :: b0 :: rest => some (b1 * 256 + b0, rest)
  | _ => none

def beU32 : List Nat → Option (Nat × List Nat)
  | b3 :: b2 :: b1 :: b0 :: rest =>
    some (((b3 * 256 + b2) * 256 + b1) * 256 + b0, rest)
  | _ => none

def takeBytes (n : Nat) (bytes : List Nat) : Option (List Nat × List Nat) :=
  if n ≤ bytes.length then some (bytes.take n, bytes.drop n) else none

/-- Outcome of a decoder that can also panic: `ok` / `err` mirror `nom`'s
`Ok` / `Err` (error and incomplete collapsed — every caller in scope
treats them alike), `panicUnknownTag` is the `panic!("unknown tag: {:x}")`
arm, and `panicTodo` covers the `todo!()` bodies (tags `String`, `Integer`,
`Float`, `Long`, `Double`, `MethodHandle`, `MethodType`,
`InvokeDynamic`). -/
inductive PResult (α : Type) where
  | ok (val : α) (rest : List Nat)
  | err
  | panicUnknownTag (tag : Nat)
  | panicTodo
  deriving Repr, DecidableEq

/-- `parse_constant_pool_info` (`parser.rs:89-165`): read the tag byte,
then dispatch.  Tag constants from `constant_pool::cfg`: Class=7,
FieldRef=9, MethodRef=10, InterfaceMethodRef=11, String=8, Integer=3,
Float=4, Long=5, Double=6, NameAndType=12, Utf8=1, MethodHandle=15,
MethodType=16, InvokeDynamic=18. -/
def parse_constant_pool_info : List Nat → PResult ConstantPoolInfo
  | [] => .err
  | tag :: bytes =>
    if tag = 7 then
      match beU16 bytes with
      | some (name_index, rest) => .ok (.Class name_index) rest
      | none => .err
    else if tag = 9 then
      match beU16 bytes with
      | some (class_index, r1) =>
        match beU16 r1 with
        | some (name_and_type_index, rest) =>
          .ok (.FieldRef class_index name_and_type_index) rest
        | none => .err
      | none => .err
    else if tag = 10 then
      match beU16 bytes with
      | some (class_index, r1) =>
        match beU16 r1 with
        | some (name_and_type_index, rest) =>
          .ok (.MethodRef class_index name_and_type_index) rest
        | none => .err
      | none => .err
    else if tag = 11 then
      match beU16 bytes with
      | some (class_index, r1) =>
        match beU16 r1 with
        | some (name_and_type_index, rest) =>
          .ok (.InterfaceMethodRef class_index name_and_type_index) rest
        | none => .err
      | none => .err
    else if tag = 8 then .panicTodo
    else if tag = 3 then .panicTodo
    else if tag = 4 then .panicTodo
    else if tag = 5 then .panicTodo
    else if tag = 6 then .panicTodo
    else if tag = 12 then
      match beU16 bytes with
      | some (name_index, r1) =>
        match beU16 r1 with
        | some (descriptor_index, rest) =>
          .ok (.NameAndType name_index descriptor_index) rest
        | none => .err
      | none => .err
    else if tag = 1 then
      match beU16 bytes with
      | some (length, r1) =>
        match takeBytes length r1 with
        | some (char_bytes, rest) => .ok (.Utf8 char_bytes) rest
        | none => .err
      | none => .err
    else if tag = 15 then .panicTodo
    else if tag = 16 then .panicTodo
    else if tag = 18 then .panicTodo
    else .panicUnknownTag tag

/-- `multi::count(parse_constant_pool_info, length)` inside
`parse_constant_pool` (`parser.rs:168-175`). -/
def poolEntriesCount : Nat → List Nat → PResult (List ConstantPoolInfo)
  | 0, bytes => .ok [] bytes
  | n + 1, bytes =>
    match parse_constant_pool_info bytes with
    | .ok info rest =>
      match poolEntriesCount n rest with
      | .ok infos rest2 => .ok (info :: infos) rest2
      | .err => .err
      | .panicUnknownTag t => .panicUnknownTag t
      | .panicTodo => .panicTodo
    | .err => .err
    | .panicUnknownTag t => .panicUnknownTag t
    | .panicTodo => .panicTodo

/-- `parse_constant_pool(length)`: `length` entries collected into a
`ConstantPool`. -/
def parse_constant_pool (length : Nat) (bytes : List Nat) : PResult ConstantPool :=
  match poolEntriesCount length bytes with
  | .ok infos rest => .ok ⟨infos⟩ rest
  | .err => .err
  | .panicUnknownTag t => .panicUnknownTag t
  | .panicTodo => .panicTodo

/-- **Claim C6** (code bug evaluation) — the spec says an unrecognized
constant-pool tag makes decoding fail by returning the
unknown-constant-pool-tag error kind to the caller.  The decoder instead
hits `panic!("unknown tag: {:x}", tag)`: on any entry whose tag byte is 2
(not a recognized tag) the process panics rather than producing an `Err`,
and the declared `ErrorKind::UnknownConstantPoolInfoTag` variant is never
constructed anywhere in the sources. -/
theorem C6_unknown_tag_panics :
    parse_constant_pool 1 [2] = PResult.panicUnknownTag 2 ∧
    (∀ bytes : List Nat, parse_constant_pool_info (2 :: bytes) = .panicUnknownTag 2) :=
  ⟨rfl, fun _ => rfl⟩

/-! ## Attribute resolution
(`crates/java_class_parser/src/structures/attributes.rs`)

`Attribute::new(class, attribute_name, bytes)` needs the owning class only
for its constant pool (`get_string` / `get_at_index`), so the class facade
is embedded as that pool.  `JavaClass::get_string` is the budgeted
`getStringF` at the exact deciding fuel (see its comment); an outer `none`
marks divergence of the Rust recursion. -/

structure JavaClass where
  constant_pool : ConstantPool
  deriving Repr, DecidableEq

/-- `JavaClass::get_at_index`: plain pool lookup. -/
def JavaClass.get_at_index (cls : JavaClass) (index : Nat) : Option ConstantPoolInfo :=
  cls.constant_pool.get index

/-- `JavaClass::get_string`, with `none` = the Rust recursion diverges. -/
def JavaClass.get_string (cls : JavaClass) (index : Nat) : Option (Option (List Nat)) :=
  getStringF cls.constant_pool (cls.constant_pool.pool.length + 1) index

/-- `multi::count(p, n)`: run `p` exactly `n` times, sequencing the rest. -/
def countN {α : Type} (p : List Nat → Option (α × List Nat)) :
    Nat → List Nat → Option (List α × List Nat)
  | 0, bytes => some ([], bytes)
  | n + 1, bytes => do
    let (a, r1) ← p bytes
    let (as, rest) ← countN p n r1
    pure (a :: as, rest)

/-- `RawAttributeInfo` (`raw_java_class.rs:57-62`). -/
structure RawAttributeInfo where
  attribute_name_index : Nat
  attribute_length : Nat
  info : List Nat
  deriving Repr, DecidableEq

/-- `parse_attribute_info` (`src/constant_pool/parser.rs:75-87`): `be_u16`
name index, `be_u32` length, then `count(be_u8, length)` payload bytes. -/
def parse_attribute_info (bytes : List Nat) : Option (RawAttributeInfo × List Nat) := do
  let (name_index, r1) ← beU16 bytes
  let (length, r2) ← beU32 r1
  let (info, rest) ← takeBytes length r2
  pure ({ attribute_name_index := name_index, attribute_length := length, info }, rest)

/-- One exception-table entry (`attributes.rs:176-182`); `catch_type`
holds the `FQName` bytes resolved from the pool, `none` for index 0 or a
failed lookup. -/
structure Exception where
  start_pc : Nat
  end_pc : Nat
  handler_pc : Nat
  catch_type : Option (List Nat)
  deriving Repr, DecidableEq

/-- `parse_exception` (`attributes.rs:231-248`): four `be_u16` fields; a
nonzero `catch_type_index` is looked up with `get_at_index` and kept only
when it lands on a `Utf8` entry (the source's `match_as!(utf; Utf8)`). -/
def parse_exception (bytes : List Nat) (cls : JavaClass) : Option (Exception × List Nat) := do
  let (start_pc, r1) ← beU16 bytes
  let (end_pc, r2) ← beU16 r1
  let (handler_pc, r3) ← beU16 r2
  let (catch_type_index, rest) ← beU16 r3
  pure ({ start_pc, end_pc, handler_pc,
          catch_type :=
            if catch_type_index = 0 then none
            else
              match cls.get_at_index catch_type_index with
              | some (.Utf8 utf) => some utf
              | _ => none }, rest)

/-- The `Code` attribute payload (`attributes.rs:117-124`); the `class`
back-reference of the Rust struct is dropped (it only feeds lazy nested
decoding, outside these claims). -/
structure Code where
  max_stack : Nat
  max_locals : Nat
  code : List Nat
  exception_table : List Exception
  attributes : List RawAttributeInfo
  deriving Repr, DecidableEq

/-- `parse_code_attr` (`attributes.rs:204-229`). -/
def parse_code_attr (info : List Nat) (cls : JavaClass) : Option (Code × List Nat) := do
  let (max_stack, r1) ← beU16 info
  let (max_locals, r2) ← beU16 r1
  let (code_length, r3) ← beU32 r2
  let (code, r4) ← takeBytes code_length r3
  let (exception_table_length, r5) ← beU16 r4
  let (exception_table, r6) ←
    countN (fun b => parse_exception b cls) exception_table_length r5
  let (attribute_length, r7) ← beU16 r6
  let (attributes, rest) ← countN parse_attribute_info attribute_length r7
  pure ({ max_stack, max_locals, code, exception_table, attributes }, rest)

/-- The anonymous `LineNumberTable` payload parser inside `Attribute::new`
(`attributes.rs:69-74`): `flat_map(be_u16, count(tuple((be_u16, be_u16))))`. -/
def parseLineNumberTableAttr (bytes : List Nat) :
    Option (List (Nat × Nat) × List Nat) := do
  let (length, r1) ← beU16 bytes
  countN (fun b => do
    let (start_pc, r) ← beU16 b
    let (line_number, r2) ← beU16 r
    pure ((start_pc, line_number), r2)) length r1

/-- `ResolveAttributeError` (`attributes.rs:105-113`): carries the
attribute name. -/
structure ResolveAttributeError where
  name : Str
  deriving Repr, DecidableEq

/-- Aliases so that the constructors of `AttributeKind` (which reuse these
type names) cannot shadow the payload types inside the declaration. -/
abbrev SignatureData := Signature
abbrev CodeData := Code
abbrev LineNumberTableData := LineNumberTable

inductive AttributeKind where
  | SourceFile (path : List Nat)
  | Signature (signature : SignatureData)
  | Code (code : CodeData)
  | LineNumberTable (table : LineNumberTableData)
  | Deprecated
  | Unknown (bytes : List Nat)

/-- `Attribute` (`attributes.rs:22-25`). -/
structure Attribute where
  attribute_name : Str
  kind : AttributeKind

/-- How a call into `Attribute::new` can end: a returned `Result`, a
panic, or divergence (the unguarded `get_string` recursion). -/
inductive RustOutcome (α : Type) where
  | ok (val : α)
  | panicked
  | diverged

/-- `Attribute::new` (`attributes.rs:44-86`).  Sources of the non-`ok`
outcomes, all verbatim from the Rust: `byteorder::BigEndian::read_u16`
asserts the payload holds at least two bytes (panics otherwise); the
`Code` and `LineNumberTable` arms call `.finish().unwrap()` on their `nom`
result (panicking on a parse error); `get_string` can diverge. -/
def Attribute.new (cls : JavaClass) (attribute_name : Str) (bytes : List Nat) :
    RustOutcome (Except ResolveAttributeError Attribute) :=
  if attribute_name = "SourceFile".data then
    match bytes with
    | b1 :: b0 :: _ =>
      match cls.get_string (b1 * 256 + b0) with
      | none => .diverged
      | some none => .ok (.error ⟨attribute_name⟩)
      | some (some utf8) => .ok (.ok ⟨attribute_name, .SourceFile utf8⟩)
    | _ => .panicked
  else if attribute_name = "Signature".data then
    match bytes with
    | b1 :: b0 :: _ =>
      match cls.get_string (b1 * 256 + b0) with
      | none => .diverged
      | some none => .ok (.error ⟨attribute_name⟩)
      | some (some utf8) =>
        match Signature.new (utf8.map Char.ofNat) with
        | some signature => .ok (.ok ⟨attribute_name, .Signature signature⟩)
        | none => .ok (.error ⟨attribute_name⟩)
    | _ => .panicked
  else if attribute_name = "Code".data then
    match parse_code_attr bytes cls with
    | some (code, _) => .ok (.ok ⟨attribute_name, .Code code⟩)
    | none => .panicked
  else if attribute_name = "LineNumberTable".data then
    match parseLineNumberTableAttr bytes with
    | some (lines, _) => .ok (.ok ⟨attribute_name, .LineNumberTable ⟨lines⟩⟩)
    | none => .panicked
  else if attribute_name = "Deprecated".data then
    .ok (.ok ⟨attribute_name, .Deprecated⟩)
  else
    .ok (.ok ⟨attribute_name, .Unknown bytes⟩)

/-- **Claim C7** — an attribute whose name is not one of the five
recognized names (`SourceFile`, `Signature`, `Code`, `LineNumberTable`,
`Deprecated`) never fails to resolve: `Attribute::new` returns
`Ok(Unknown(bytes))` with the payload bytes intact, for every class and
every payload. -/
theorem C7_unknown_attribute_safe (cls : JavaClass) (attribute_name : Str)
    (bytes : List Nat)
    (h : attribute_name ∉ ["SourceFile".data, "Signature".data, "Code".data,
      "LineNumberTable".data, "Deprecated".data]) :
    Attribute.new cls attribute_name bytes =
      .ok (.ok ⟨attribute_name, .Unknown bytes⟩) := by
  simp only [List.mem_cons, List.not_mem_nil, or_false, not_or] at h
  obtain ⟨h1, h2, h3, h4, h5⟩ := h
  simp only [Attribute.new, if_neg h1, if_neg h2, if_neg h3, if_neg h4, if_neg h5]

/-- Witness for C7: the (real but unrecognized) attribute name
`StackMapTable` with payload `[1, 2, 3]` over an empty pool. -/
theorem C7_unknown_attribute_safe_witness :
    Attribute.new ⟨⟨[]⟩⟩ "StackMapTable".data [1, 2, 3] =
      .ok (.ok ⟨"StackMapTable".data, .Unknown [1, 2, 3]⟩) :=
  C7_unknown_attribute_safe ⟨⟨[]⟩⟩ "StackMapTable".data [1, 2, 3] (by decide)

/-- **Claim C10** (code bug evaluation) — the spec-level claim says
resolving a recognized attribute either returns a decoded `Attribute` or a
`ResolveAttributeError` and never panics.  In the source, a `Code` or
`LineNumberTable` payload that fails to parse reaches
`.finish().unwrap()`, and a `SourceFile` payload shorter than two bytes
trips `byteorder`'s length assertion: all three panic.  The inputs below
exercise a truncated payload, a `code_length` field (5) exceeding the
bytes present, a one-byte `LineNumberTable` payload, and an empty
`SourceFile` payload. -/
theorem C10_truncated_attribute_panics :
    Attribute.new ⟨⟨[]⟩⟩ "Code".data [] = .panicked ∧
    Attribute.new ⟨⟨[]⟩⟩ "Code".data [0, 0, 0, 0, 0, 0, 0, 5] = .panicked ∧
    Attribute.new ⟨⟨[]⟩⟩ "LineNumberTable".data [0] = .panicked ∧
    Attribute.new ⟨⟨[]⟩⟩ "SourceFile".data [] = .panicked := by
  refine ⟨?_, ?_, ?_, ?_⟩ <;> rfl

/-! ## Errors and `find_interfaces`
(`crates/java_class_parser/src/error.rs`, `crates/java_class_parser/src/lib.rs:110-122`) -/

/-- `ErrorKind` (`error.rs:59-88`); payload types reduced to what the
claims inspect (`FQNameBuf` → `Str`, the `io`/`nom`/`zip` payloads
dropped). -/
inductive ErrorKind where
  | NoClassFound (name : Str)
  | UnsupportedEntry (path : Str)
  | UnknownConstantPoolInfoTag (tag : Nat)
  | IoError
  | MissingBytes
  | NomError
  | ZipError
  | AddingInheritanceFailed (name : Str)
  deriving Repr, DecidableEq

/-- `JavaClassParser::find_interfaces` (`lib.rs:110-122`): run `self.find`
over `class.interfaces()` in order; keep successes, silently drop
`NoClassFound` failures (`filter_map` returning `None`), and let the first
other error abort the `collect::<Result<Vec<_>, _>>`.  The parser state
behind `self.find` is abstracted as the lookup function `find`, and the
class's interface-name list as the explicit argument. -/
def find_interfaces (find : Str → Except ErrorKind JavaClass) :
    List Str → Except ErrorKind (List JavaClass)
  | [] => .ok []
  | i :: rest =>
    match find i with
    | .ok c =>
      match find_interfaces find rest with
      | .ok cs => .ok (c :: cs)
      | .error e => .error e
    | .error e =>
      match e with
      | .NoClassFound _ => find_interfaces find rest
      | _ => .error e

/-- A lookup outcome the `filter_map` of `find_interfaces` never turns
into an error: a hit, or a `NoClassFound` miss. -/
def okOrNotFound (r : Except ErrorKind JavaClass) : Bool :=
  match r with
  | .ok _ => true
  | .error (.NoClassFound _) => true
  | .error _ => false

/-- **Claim C8** — `find_interfaces` returns exactly the interfaces that
resolve on the classpath: interface names whose lookup fails with
`NoClassFound` are silently omitted, while the first lookup failing with
any other error makes `find_interfaces` return that error. -/
theorem C8_find_interfaces (find : Str → Except ErrorKind JavaClass)
    (interfaces : List Str) :
    ((∀ i ∈ interfaces, okOrNotFound (find i) = true) →
      find_interfaces find interfaces =
        .ok (interfaces.filterMap (fun i => (find i).toOption))) ∧
    (∀ pre i post e, interfaces = pre ++ i :: post →
      (∀ j ∈ pre, okOrNotFound (find j) = true) →
      find i = .error e → (∀ n, e ≠ .NoClassFound n) →
      find_interfaces find interfaces = .error e) := by
  constructor
  · intro hall
    induction interfaces with
    | nil => rfl
    | cons i rest ih =>
      have hi := hall i (by simp)
      have hrest := ih (fun j hj => hall j (by simp [hj]))
      match hfind : find i with
      | .ok c =>
        simp only [find_interfaces, hfind, hrest, List.filterMap_cons, Except.toOption]
      | .error e =>
        match e with
        | .NoClassFound n =>
          simp only [find_interfaces, hfind, hrest, List.filterMap_cons, Except.toOption]
        | .UnsupportedEntry p | .UnknownConstantPoolInfoTag t | .IoError
        | .MissingBytes | .NomError | .ZipError | .AddingInheritanceFailed n =>
          simp [okOrNotFound, hfind] at hi
  · intro pre i post e hsplit hpre hi hnnf
    subst hsplit
    induction pre with
    | nil =>
      have : find_interfaces find (i :: post) = .error e := by
        match e, hnnf with
        | .UnsupportedEntry p, _ | .UnknownConstantPoolInfoTag t, _ | .IoError, _
        | .MissingBytes, _ | .NomError, _ | .ZipError, _
        | .AddingInheritanceFailed n, _ =>
          simp only [find_interfaces, hi]
        | .NoClassFound n, hnnf => exact absurd rfl (hnnf n)
      simpa using this
    | cons j pre ih =>
      have hj := hpre j (by simp)
      have hrest := ih (fun x hx => hpre x (by simp [hx]))
      match hfind : find j with
      | .ok c =>
        simp only [List.cons_append, find_interfaces, hfind, List.append_eq]
        rw [hrest]
      | .error je =>
        match je with
        | .NoClassFound n =>
          simp only [List.cons_append, find_interfaces, hfind]
          exact hrest
        | .UnsupportedEntry p | .UnknownConstantPoolInfoTag t | .IoError
        | .MissingBytes | .NomError | .ZipError | .AddingInheritanceFailed n =>
          simp [okOrNotFound, hfind] at hj

/-- Witness for C8 over a two-interface class: interface `A` resolves,
interface `B` is `NoClassFound` and is silently dropped; and when a lookup
fails with an `IoError` instead, `find_interfaces` returns that error. -/
theorem C8_find_interfaces_witness :
    find_interfaces
        (fun i => if i = "A".data then .ok ⟨⟨[]⟩⟩ else .error (.NoClassFound i))
        ["A".data, "B".data] = .ok [⟨⟨[]⟩⟩] ∧
    find_interfaces
        (fun i => if i = "A".data then .ok ⟨⟨[]⟩⟩ else .error .IoError)
        ["A".data, "B".data] = .error .IoError := by
  constructor
  · exact ((C8_find_interfaces
      (fun i => if i = "A".data then .ok ⟨⟨[]⟩⟩ else .error (.NoClassFound i))
      ["A".data, "B".data]).1 (by decide)).trans rfl
  · exact (C8_find_interfaces
      (fun i => if i = "A".data then .ok ⟨⟨[]⟩⟩ else .error .IoError)
      ["A".data, "B".data]).2 ["A".data] "B".data [] .IoError rfl (by decide)
      rfl (fun n h => ErrorKind.noConfusion h)

/-! ## Classpath resource lookup (`crates/java_classpaths/src/lib.rs:93-114`)

The filesystem behind each classpath entry is abstracted as data held by
the entry: a directory entry carries the map from relative paths to the
resources of the files below it (`get_in_dir` = join + existence check +
open), a `.jar`/`.zip` entry the map from archive entry names to buffered
resources (`get_in_archive`, with `ZipError::FileNotFound` ↦ miss), and a
non-directory entry with any other extension is skipped by the `_ => {}`
arm of the extension `match`.  Io failures while opening/reading are
outside claim C4, so a present path always yields its resource. -/

/-- A classpath resource, identified by its resolved origin `url`. -/
structure Resource where
  url : Str
  deriving Repr, DecidableEq

inductive ClasspathEntry where
  | dir (files : List (Str × Resource))
  | archive (entries : List (Str × Resource))
  | otherFile
  deriving Repr, DecidableEq

/-- What a single entry yields for a (already slash-stripped) path:
`get_in_dir` / `get_in_archive` / the skip arm. -/
def lookupEntry (entry : ClasspathEntry) (path : Str) : Option Resource :=
  match entry with
  | .dir files => files.lookup path
  | .archive entries => entries.lookup path
  | .otherFile => none

/-- The `for entry in self` loop of `Classpath::get`: first hit returns,
misses continue, unsupported entries are skipped. -/
def classpathGetGo : List ClasspathEntry → Str → Option Resource
  | [], _ => none
  | entry :: rest, p =>
    match lookupEntry entry p with
    | some r => some r
    | none => classpathGetGo rest p

/-- `Classpath::get` (`lib.rs:93-114`): strip leading `/` characters
(`trim_start_matches("/")`), then scan the entries in declared order. -/
def Classpath.get (paths : List ClasspathEntry) (path : Str) : Option Resource :=
  classpathGetGo paths (path.dropWhile (fun c => c == '/'))

/-- **Claim C4** — classpath lookup consults entries in declared order and
the first entry that yields a match wins: whenever the first entry `A`
contains the queried relative path, `get` over `[A, B, …]` returns `A`'s
resource, for every content of `B` and of the remaining entries — they
are never consulted. -/
theorem C4_classpath_first_match_wins (A : ClasspathEntry)
    (rest : List ClasspathEntry) (path : Str) (rA : Resource)
    (hA : lookupEntry A (path.dropWhile (fun c => c == '/')) = some rA) :
    Classpath.get (A :: rest) path = some rA := by
  unfold Classpath.get classpathGetGo
  rw [hA]

/-- Witness for C4: entries `A` and `B` are directories that both contain
`com/example/Square.class`; lookup over `[A, B]` returns `A`'s file. -/
theorem C4_classpath_first_match_wins_witness :
    Classpath.get
      [.dir [("com/example/Square.class".data, ⟨"file:a/com/example/Square.class".data⟩)],
       .dir [("com/example/Square.class".data, ⟨"file:b/com/example/Square.class".data⟩)]]
      "com/example/Square.class".data =
      some ⟨"file:a/com/example/Square.class".data⟩ :=
  C4_classpath_first_match_wins
    (.dir [("com/example/Square.class".data, ⟨"file:a/com/example/Square.class".data⟩)])
    [.dir [("com/example/Square.class".data, ⟨"file:b/com/example/Square.class".data⟩)]]
    "com/example/Square.class".data
    ⟨"file:a/com/example/Square.class".data⟩ (by decide)

/-! ## Inheritance graph (`crates/java_class_parser/src/inheritance.rs`)

`inheritance.rs` reads a `JavaClass` only through `this()` (cloning aside),
so the class facade is embedded as its fully qualified name.  The parser
behind `inspect` is the pair of lookups it consumes (`find_super`,
`find_interfaces`), abstracted as an environment.

The graph is `petgraph::graph::DiGraph<FQNameBuf, InheritKind>`.
`petgraph` keeps, for every node, its outgoing edges as a singly linked
list whose head `add_edge` replaces — so `Graph::edges(a)` yields the
outgoing edges of `a` most-recently-added first (petgraph's documentation:
neighbors are listed in reverse order of edge addition).  The embedding
stores edges in insertion order and `edgesFrom` reverses the per-node
selection to reproduce that iteration order.

The Rust `while let Some(class) = stack.pop()` and BFS `while let
Some(ptr) = queue.pop_front()` loops carry no structural termination
measure, so both are embedded with an explicit iteration budget; the
theorems instantiate budgets that are visibly ample for the three-class
scenario (each loop runs once per stack/queue element, and only finitely
many are ever pushed there). -/

/-- The class facade as `inheritance.rs` sees it: its name (`this()`). -/
structure ClassFacade where
  this : Str
  deriving Repr, DecidableEq

/-- `InheritKind` (`inheritance.rs:18-24`). -/
inductive InheritKind where
  | Extends
  | Implements
  deriving Repr, DecidableEq

/-- `petgraph::graph::DiGraph<FQNameBuf, InheritKind>`: node weights in
insertion order (`NodeIndex` = position) and edges `(source, target,
weight)` in insertion order. -/
structure DiGraph where
  nodes : List Str
  edges : List (Nat × Nat × InheritKind)
  deriving Repr, DecidableEq

/-- `Graph::add_node`: append, return the new index. -/
def DiGraph.add_node (g : DiGraph) (w : Str) : DiGraph × Nat :=
  ({ g with nodes := g.nodes ++ [w] }, g.nodes.length)

/-- `Graph::contains_edge a b`: any edge from `a` to `b`, of any kind. -/
def DiGraph.contains_edge (g : DiGraph) (a b : Nat) : Bool :=
  g.edges.any (fun e => e.1 == a && e.2.1 == b)

/-- `Graph::add_edge`. -/
def DiGraph.add_edge (g : DiGraph) (a b : Nat) (w : InheritKind) : DiGraph :=
  { g with edges := g.edges ++ [(a, b, w)] }

/-- `Graph::edges(a)`: outgoing edges of `a`, most recently added first
(see the section comment). -/
def DiGraph.edgesFrom (g : DiGraph) (a : Nat) : List (Nat × Nat × InheritKind) :=
  (g.edges.filter (fun e => e.1 == a)).reverse

/-- `InheritanceGraph` (`inheritance.rs:11-15`): the petgraph graph, the
`HashMap<FQNameBuf, (JavaClass, NodeIndex)>` (as an association list —
only lookups and fresh inserts happen), and the root name. -/
structure InheritanceGraph where
  graph : DiGraph
  mapping : List (Str × ClassFacade × Nat)
  root : Str
  deriving Repr, DecidableEq

/-- `HashMap::get`. -/
def mappingGet (m : List (Str × ClassFacade × Nat)) (k : Str) :
    Option (ClassFacade × Nat) :=
  m.lookup k

/-- `InheritanceGraph::new` (`inheritance.rs:27-37`). -/
def InheritanceGraph.new (cls : ClassFacade) : InheritanceGraph :=
  let p := DiGraph.add_node ⟨[], []⟩ cls.this
  { graph := p.1, mapping := [(cls.this, cls, p.2)], root := cls.this }

/-- `InheritanceGraph::add_class` (`inheritance.rs:40-48`): `true` only
for a class not seen before. -/
def InheritanceGraph.add_class (g : InheritanceGraph) (cls : ClassFacade) :
    InheritanceGraph × Bool :=
  if (mappingGet g.mapping cls.this).isSome then (g, false)
  else
    let p := g.graph.add_node cls.this
    ({ g with graph := p.1, mapping := g.mapping ++ [(cls.this, cls, p.2)] }, true)

/-- `InheritanceGraph::add_inheritance` (`inheritance.rs:52-74`): `true`
only when both classes are present and no edge (of either kind) already
links them. -/
def InheritanceGraph.add_inheritance (g : InheritanceGraph) (cls inherits : Str)
    (ty : InheritKind) : InheritanceGraph × Bool :=
  match mappingGet g.mapping cls with
  | none => (g, false)
  | some ci =>
    match mappingGet g.mapping inherits with
    | none => (g, false)
    | some ii =>
      if g.graph.contains_edge ci.2 ii.2 then (g, false)
      else ({ g with graph := g.graph.add_edge ci.2 ii.2 ty }, true)

/-- `InheritanceGraph::get_class` (`inheritance.rs:76-83`); the source
`expect`s, the embedding returns `none` there and the callers below
propagate it as a panic marker. -/
def InheritanceGraph.get_class (g : InheritanceGraph) (node_index : Nat) :
    Option ClassFacade :=
  match g.graph.nodes[node_index]? with
  | none => none
  | some name => (mappingGet g.mapping name).map (fun p => p.1)

/-- The inner `for edge in inherits` loop of `inherits`
(`inheritance.rs:106-113`): walk the edge iteration order, pushing every
not-yet-visited target onto the output and the BFS queue.  `none` models
the `expect` panic of `get_class` (never reached from a graph built by
`inspect`). -/
def collectEdges (g : InheritanceGraph) (visited : List Str) :
    List (Nat × Nat × InheritKind) → List (ClassFacade × InheritKind) → List Str →
    Option (List (ClassFacade × InheritKind) × List Str)
  | [], outout, queue => some (outout, queue)
  | e :: es, outout, queue =>
    match g.get_class e.2.1 with
    | none => none
    | some to_class =>
      if visited.contains to_class.this then collectEdges g visited es outout queue
      else
        collectEdges g visited es (outout ++ [(to_class, e.2.2)])
          (queue ++ [to_class.this])

/-- The `while let Some(ptr) = queue.pop_front()` loop of `inherits`
(`inheritance.rs:102-117`), with an explicit iteration budget (first
argument); `none` = budget exhausted or a `mapping[ptr]` / `get_class`
panic. -/
def inheritsGo (g : InheritanceGraph) :
    Nat → List Str → List Str → List (ClassFacade × InheritKind) →
    Option (List (ClassFacade × InheritKind))
  | 0, _, _, _ => none
  | _ + 1, [], _, outout => some outout
  | fuel + 1, ptr :: queue, visited, outout =>
    if visited.contains ptr then inheritsGo g fuel queue visited outout
    else
      match mappingGet g.mapping ptr with
      | none => none
      | some p =>
        match collectEdges g visited (g.graph.edgesFrom p.2) outout queue with
        | none => none
        | some res => inheritsGo g fuel res.2 (visited ++ [ptr]) res.1

/-- `InheritanceGraph::inherits` (`inheritance.rs:87-120`): error for an
unknown name, otherwise BFS from the node over outgoing edges.  Outer
`none` = the budget `fuel` ran out (or an internal panic). -/
def InheritanceGraph.inherits (g : InheritanceGraph) (fqn : Str) (fuel : Nat) :
    Option (Except ErrorKind (List (ClassFacade × InheritKind))) :=
  if (mappingGet g.mapping fqn).isNone then some (.error (.NoClassFound fqn))
  else (inheritsGo g fuel [fqn] [] []).map .ok

/-- The parser as `inspect` consumes it. -/
structure ParserEnv where
  find_super : ClassFacade → Except ErrorKind ClassFacade
  find_interfaces : ClassFacade → Except ErrorKind (List ClassFacade)

/-- The `for interface in interfaces` loop of `inspect`
(`inheritance.rs:154-164`): add each interface (pushing it onto the work
stack when new) and an `Implements` edge, failing with
`AddingInheritanceFailed` when the edge insertion is refused. -/
def interfacesLoop (cls : ClassFacade) :
    List ClassFacade → List ClassFacade → InheritanceGraph →
    Except ErrorKind (List ClassFacade × InheritanceGraph)
  | [], stack, graph => .ok (stack, graph)
  | interface :: rest, stack, graph =>
    let interface_name := interface.this
    let p1 := graph.add_class interface
    let stack2 := if p1.2 then interface :: stack else stack
    let p2 := p1.1.add_inheritance cls.this interface_name .Implements
    if p2.2 then interfacesLoop cls rest stack2 p2.1
    else .error (.AddingInheritanceFailed cls.this)

/-- One iteration of `inspect`'s work-stack loop (`inheritance.rs:129-165`):
resolve the super class (`NoClassFound` ↦ none, other errors propagate),
link it, then process the interfaces.  The work stack is LIFO (`Vec` push
and pop at the end) with its top at the list head. -/
def inspectStep (env : ParserEnv) (cls : ClassFacade) (stack : List ClassFacade)
    (graph : InheritanceGraph) :
    Except ErrorKind (List ClassFacade × InheritanceGraph) := do
  let osuper : Option ClassFacade ←
    match env.find_super cls with
    | .ok o => Except.ok (some o)
    | .error e =>
      match e with
      | .NoClassFound _ => Except.ok none
      | _ => Except.error e
  let state ←
    match osuper with
    | none => Except.ok (stack, graph)
    | some super_class =>
      let super_class_name := super_class.this
      let p1 := graph.add_class super_class
      let stack2 := if p1.2 then super_class :: stack else stack
      let p2 := p1.1.add_inheritance cls.this super_class_name .Extends
      if p2.2 then Except.ok (stack2, p2.1)
      else Except.error (.AddingInheritanceFailed cls.this)
  let interfaces ← env.find_interfaces cls
  interfacesLoop cls interfaces state.1 state.2

/-- `inspect`'s `while let Some(class) = stack.pop()` loop, with an
explicit iteration budget; `none` = budget exhausted. -/
def inspectGo (env : ParserEnv) :
    Nat → List ClassFacade → InheritanceGraph →
    Option (Except ErrorKind InheritanceGraph)
  | 0, _, _ => none
  | _ + 1, [], graph => some (.ok graph)
  | fuel + 1, cls :: stack, graph =>
    match inspectStep env cls stack graph with
    | .error e => some (.error e)
    | .ok state => inspectGo env fuel state.1 state.2

/-- `inspect` (`inheritance.rs:124-168`). -/
def inspect (cls : ClassFacade) (env : ParserEnv) (fuel : Nat) :
    Option (Except ErrorKind InheritanceGraph) :=
  inspectGo env fuel [cls] (InheritanceGraph.new cls)

/-- The classpath of the spec's end-to-end scenario: `Square` extends
`Rectangle` and implements `Shape`; `Rectangle`'s and `Shape`'s own
supers are off the classpath (`find` yields `NoClassFound`), and neither
has resolvable interfaces. -/
def squareEnv : ParserEnv where
  find_super := fun c =>
    if c.this = "Square".data then .ok ⟨"Rectangle".data⟩
    else .error (.NoClassFound "Object".data)
  find_interfaces := fun c =>
    if c.this = "Square".data then .ok [⟨"Shape".data⟩]
    else .ok []

/-- **Claim C3** (code bug evaluation) — the spec (and the repo's own
integration test `parse_jar.rs:28`) says `inherits("Square")` returns
`[(Rectangle, Extends), (Shape, Implements)]`, same-depth order following
the insertion order at each node.  `inspect` inserts the `Extends` edge
before the `Implements` edge, but `petgraph`'s `Graph::edges` iterates a
node's outgoing edges most-recently-added first, so the BFS emits
`[(Shape, Implements), (Rectangle, Extends)]` — the reverse. -/
theorem C3_inherits_order_code_bug :
    ∃ g : InheritanceGraph,
      inspect ⟨"Square".data⟩ squareEnv 10 = some (.ok g) ∧
      g.inherits "Square".data 10 =
        some (.ok [(⟨"Shape".data⟩, .Implements), (⟨"Rectangle".data⟩, .Extends)]) ∧
      ([(⟨"Shape".data⟩, InheritKind.Implements), (⟨"Rectangle".data⟩, InheritKind.Extends)] :
          List (ClassFacade × InheritKind)) ≠
        [(⟨"Rectangle".data⟩, .Extends), (⟨"Shape".data⟩, .Implements)] := by
  refine ⟨{ graph := { nodes := ["Square".data, "Rectangle".data, "Shape".data],
                       edges := [(0, 1, .Extends), (0, 2, .Implements)] },
            mapping := [("Square".data, ⟨"Square".data⟩, 0),
                        ("Rectangle".data, ⟨"Rectangle".data⟩, 1),
                        ("Shape".data, ⟨"Shape".data⟩, 2)],
            root := "Square".data }, rfl, rfl, by decide⟩
